import Mathlib

/-!
# OpenAgent scheduler subsystem: a shallow embedding

This file embeds the scheduling/execution core of the OpenAgent repository
in Lean 4 and proves properties of it:

* `openagent/agent/config.py` — the pydantic models `SchedulerConfig` and
  `TaskConfig` together with the validation that actually runs on them;
* `openagent/agent/scheduler.py` — `SchedulerManager` with its two backends:
  the APScheduler-based local scheduler and the Celery-based queue scheduler
  (beat schedule, worker threads, the per-task `celery_task` body with its
  `task_running` guard), and `stop`.

Python dicts are modelled as insertion-ordered association lists with unique
keys; log output is modelled as a list of `Event`s; the agent runner is an
oracle argument (`RunnerOutcome`) supplied to each firing; the random jitter
drawn by `random.uniform` is likewise an oracle argument.
-/

namespace OpenAgent

/-! ## Python dict model

A Python dict is an insertion-ordered association list whose keys are
unique.  `dictInsert` is `d[k] = v`: it overwrites in place when the key is
present and appends otherwise, which is also the semantics of building a
dict from a YAML mapping or a dict literal with a repeated key (the later
value silently wins). -/

def dictInsert {α : Type} (d : List (String × α)) (k : String) (v : α) :
    List (String × α) :=
  match d with
  | [] => [(k, v)]
  | (k', v') :: rest =>
      if k' = k then (k, v) :: rest else (k', v') :: dictInsert rest k v

def dictOfList {α : Type} (l : List (String × α)) : List (String × α) :=
  l.foldl (fun d kv => dictInsert d kv.1 kv.2) []

def dictGet {α : Type} (d : List (String × α)) (k : String) : Option α :=
  match d with
  | [] => none
  | (k', v) :: rest => if k' = k then some v else dictGet rest k

/-! ## Data model (`openagent/agent/config.py`) -/

/-- `SchedulerConfig` (config.py lines 15-34): backend selection for one
task.  `type` is the only required field. -/
structure SchedulerConfig where
  type : String
  broker_url : Option String := none
  result_backend : Option String := none
deriving Repr, DecidableEq

/-- `TaskConfig` (config.py lines 37-61).  `delay_variation` is
`Optional[int]` with default `0` in the source; no configuration in the
repository passes an explicit null, so it is carried as a plain integer
here.  `schedule` defaults to a local `SchedulerConfig`. -/
structure TaskConfig where
  interval : Option Int := none
  delay_variation : Int := 0
  query : String
  cron : Option String := none
  schedule : SchedulerConfig := { type := "local" }
deriving Repr, DecidableEq

/-- Raw (pre-validation) form of `SchedulerConfig`: every field may be
absent. -/
structure RawSchedulerConfig where
  type : Option String := none
  broker_url : Option String := none
  result_backend : Option String := none
deriving Repr, DecidableEq

/-- Raw (pre-validation) form of `TaskConfig`: every field may be absent. -/
structure RawTaskConfig where
  interval : Option Int := none
  delay_variation : Option Int := none
  query : Option String := none
  cron : Option String := none
  schedule : Option RawSchedulerConfig := none
deriving Repr, DecidableEq

/-- The body of `validate_scheduler_type` (config.py lines 20-25) as
written in the source. -/
def validate_scheduler_type (v : String) : Except String String :=
  if v ≠ "local" ∧ v ≠ "queue" then
    .error "Scheduler type must be either local or queue"
  else .ok v

/-- The body of `validate_celery_urls` (config.py lines 27-34) as written
in the source: it rejects an absent or empty URL only when the already
validated `type` field equals "queue". -/
def validate_celery_urls (ty : Option String) (v : Option String) :
    Except String (Option String) :=
  if ty = some "queue" ∧ (v = none ∨ v = some "") then
    .error "broker_url and result_backend are required for Celery scheduler"
  else .ok v

/-- The body of `validate_interval` (config.py lines 49-54) as written in
the source. -/
def validate_interval (v : Option Int) : Except String (Option Int) :=
  match v with
  | none => .ok none
  | some i => if i < 1 then .error "Interval must be greater than 1 second" else .ok (some i)

/-- The body of `validate_delay_variation` (config.py lines 56-61) as
written in the source. -/
def validate_delay_variation (v : Option Int) : Except String (Option Int) :=
  match v with
  | none => .ok none
  | some i => if i < 0 then .error "Delay variation must be non-negative" else .ok (some i)

/-- Pydantic validation of `SchedulerConfig` as it actually executes.  In
the source every `field_validator` is wrapped by an outer `@classmethod`
decorator; pydantic v2 collects validators by looking for its own decorator
proxy objects in the class namespace, so a validator hidden inside a
`classmethod` wrapper is silently never registered.  Hence only the
required-field check on `type` runs. -/
def RawSchedulerConfig.validate (r : RawSchedulerConfig) :
    Except String SchedulerConfig :=
  match r.type with
  | none => .error "Field required: type"
  | some t =>
      .ok { type := t, broker_url := r.broker_url,
            result_backend := r.result_backend }

/-- Pydantic validation of `TaskConfig` as it actually executes.  As with
`RawSchedulerConfig.validate`, the validators declared in the source are
never registered (outer `@classmethod` decorator), so only required-field
checks run: `query` for the task itself and `type` for a supplied nested
schedule.  An absent `schedule` takes the default local `SchedulerConfig`;
an absent `delay_variation` takes the default `0`. -/
def RawTaskConfig.validate (r : RawTaskConfig) : Except String TaskConfig :=
  match r.query with
  | none => .error "Field required: query"
  | some q =>
      match r.schedule with
      | none =>
          .ok { interval := r.interval,
                delay_variation := r.delay_variation.getD 0,
                query := q, cron := r.cron,
                schedule := { type := "local" } }
      | some rs =>
          match rs.validate with
          | .error e => .error e
          | .ok sc =>
              .ok { interval := r.interval,
                    delay_variation := r.delay_variation.getD 0,
                    query := q, cron := r.cron, schedule := sc }

/-- Validation of `SchedulerConfig` as it would behave if the validators
declared in the source were registered (they are not — see
`RawSchedulerConfig.validate`); the bodies are exactly the declared ones. -/
def RawSchedulerConfig.validateDeclared (r : RawSchedulerConfig) :
    Except String SchedulerConfig :=
  match r.type with
  | none => .error "Field required: type"
  | some t =>
      match validate_scheduler_type t with
      | .error e => .error e
      | .ok t' =>
          match validate_celery_urls (some t') r.broker_url with
          | .error e => .error e
          | .ok b =>
              match validate_celery_urls (some t') r.result_backend with
              | .error e => .error e
              | .ok rb => .ok { type := t', broker_url := b, result_backend := rb }

/-- Validation of `TaskConfig` as it would behave if the validators
declared in the source were registered (they are not — see
`RawTaskConfig.validate`).  Note that even this version has no check for an
empty `query`, for both `interval` and `cron` being set, or for neither
being set: no such validator exists anywhere in the source. -/
def RawTaskConfig.validateDeclared (r : RawTaskConfig) :
    Except String TaskConfig :=
  match r.query with
  | none => .error "Field required: query"
  | some q =>
      match validate_interval r.interval with
      | .error e => .error e
      | .ok iv =>
          match validate_delay_variation r.delay_variation with
          | .error e => .error e
          | .ok dv =>
              match (match r.schedule with
                     | none => Except.ok { type := "local" : SchedulerConfig }
                     | some rs => rs.validateDeclared) with
              | .error e => .error e
              | .ok sc =>
                  .ok { interval := iv, delay_variation := dv.getD 0,
                        query := q, cron := r.cron, schedule := sc }

/-- Whether an `Except` result is a success. -/
def exceptOk {ε α : Type} : Except ε α → Bool
  | .ok _ => true
  | .error _ => false

/-! ## Scheduler embedding (`openagent/agent/scheduler.py`) -/

/-- Result of joining a thread with a timeout: either the thread finished
within the timeout or the join returned with the thread still alive. -/
inductive JoinOutcome where
  | joined
  | timedOut
deriving Repr, DecidableEq

/-- Oracle for one invocation of the agent runner `task_runner(query)`:
either it returns a result or it raises an exception with this message. -/
inductive RunnerOutcome where
  | ok (result : String)
  | err (exc : String)
deriving Repr, DecidableEq

/-- Observable log/effect events.  Log messages are modelled up to exact
formatting. -/
inductive Event where
  | info (msg : String)
  | okLog (msg : String)
  | warning (msg : String)
  | errorLog (msg : String)
  | debugSleep (taskId : String) (delay : Int)
  | sleepJitter (delay : Int)
  | runnerInvoked (query : String)
  | localShutdown (wait : Bool)
  | broadcastShutdown
  | joinThread (name : String) (timeout : Nat) (outcome : JoinOutcome)
  | purge
deriving Repr, DecidableEq

/-- Trigger of a locally scheduled job: either a `CronTrigger` built from a
crontab string or an `IntervalTrigger` with a period in seconds. -/
inductive Trigger where
  | cron (expr : String)
  | interval (seconds : Int)
deriving Repr, DecidableEq

/-- One registration made through `scheduler.add_job` in
`init_scheduled_tasks`: id and name are passed by value at registration
time, and the wrapper arguments `query` and `delay_variation` are passed by
value through `args`. -/
structure LocalJob where
  id : String
  name : String
  trigger : Trigger
  args_query : String
  args_delay_variation : Int
deriving Repr, DecidableEq

/-- The Celery application configuration assembled in `_init_celery_task`
(scheduler.py lines 72-89). -/
structure CeleryAppConf where
  broker : Option String
  backend : Option String
  task_acks_late : Bool
  worker_prefetch_multiplier : Int
  task_track_started : Bool
  task_serializer : String
  accept_content : List String
  result_serializer : String
  timezone : String
  enable_utc : Bool
deriving Repr, DecidableEq

/-- The registration data of one `@celery_app.task` declaration
(scheduler.py lines 97-102). -/
structure CeleryTaskReg where
  name : String
  bind : Bool
  max_retries : Nat
  default_retry_delay : Int
  task_id : String
deriving Repr, DecidableEq

/-- The value stored under one key of `celery_app.conf.beat_schedule`
(scheduler.py lines 131-142). -/
structure BeatOptions where
  task : String
  schedule : Option Int
  queue : String
  expires : Option Int
  ignore_result : Bool
deriving Repr, DecidableEq

/-- The worker constructed in `_start_celery_threads` (scheduler.py lines
151-158). -/
structure WorkerConfig where
  queues : List String
  concurrency : Nat
  pool : String
deriving Repr, DecidableEq

/-- A thread started by `_start_celery_threads`. -/
structure ThreadInfo where
  name : String
  daemon : Bool
deriving Repr, DecidableEq

/-- The state of a `SchedulerManager` (scheduler.py lines 16-21), extended
with the observable log, the list of workers created, and the value left in
the loop variable `task_id` that every local `task_wrapper` closes over. -/
structure SchedulerManager where
  localJobs : List LocalJob := []
  localRunning : Bool := false
  celery_app : Option CeleryAppConf := none
  beat_schedule : List (String × BeatOptions) := []
  celeryTasks : List CeleryTaskReg := []
  workers : List WorkerConfig := []
  worker_thread : Option ThreadInfo := none
  beat_thread : Option ThreadInfo := none
  loopCellTaskId : Option String := none
  events : List Event := []
deriving Repr, DecidableEq

/-- The manager as built by `SchedulerManager.__init__`. -/
def SchedulerManager.new : SchedulerManager := {}

/-- `self.scheduler.add_job(...)` as called from `init_scheduled_tasks`:
APScheduler raises `ConflictingIdError` when a job with the same explicit
id already exists, and otherwise stores the job. -/
def add_job (s : SchedulerManager) (tid : String) (trig : Trigger)
    (cfg : TaskConfig) : Except String SchedulerManager :=
  if tid ∈ s.localJobs.map LocalJob.id then
    .error ("ConflictingIdError: " ++ tid)
  else
    .ok { s with
      localJobs := s.localJobs ++
        [{ id := tid, name := "Task_" ++ tid, trigger := trig,
           args_query := cfg.query,
           args_delay_variation := cfg.delay_variation }],
      events := s.events ++
        [.info ("Scheduled local task " ++ tid)] }

/-- `_start_celery_threads` (scheduler.py lines 148-176): one worker on the
queue "sequential_queue" with concurrency 1 and the solo pool, plus one
beat, each in a daemon thread. -/
def _start_celery_threads (s : SchedulerManager) : SchedulerManager :=
  { s with
    workers := s.workers ++
      [{ queues := ["sequential_queue"], concurrency := 1, pool := "solo" }],
    worker_thread := some { name := "celery_worker_thread", daemon := true },
    beat_thread := some { name := "celery_beat_thread", daemon := true },
    events := s.events ++
      [.okLog "Celery worker and beat threads started in sequential mode"] }

/-- `_init_celery_task` (scheduler.py lines 69-146): lazily creates the
Celery app (and starts the worker/beat threads) on the first queue-backed
task, registers the per-task `celery_task` with `max_retries = 0`, and adds
a beat-schedule entry whose `expires` option is `interval - 1` seconds.
When `interval` is absent, the Python expression
`task_config.interval - 1` raises a `TypeError`. -/
def _init_celery_task (s : SchedulerManager) (tid : String)
    (cfg : TaskConfig) : Except String SchedulerManager :=
  let appConf : CeleryAppConf :=
    { broker := cfg.schedule.broker_url,
      backend := cfg.schedule.result_backend,
      task_acks_late := true,
      worker_prefetch_multiplier := 1,
      task_track_started := true,
      task_serializer := "json",
      accept_content := ["json"],
      result_serializer := "json",
      timezone := "UTC",
      enable_utc := true }
  let s1 :=
    if s.celery_app.isNone then
      _start_celery_threads { s with celery_app := some appConf }
    else s
  match cfg.interval with
  | none => .error ("TypeError: unsupported operand for interval of task " ++ tid)
  | some i =>
      .ok { s1 with
        celeryTasks := s1.celeryTasks ++
          [{ name := "openagent.task." ++ tid, bind := true,
             max_retries := 0, default_retry_delay := 0, task_id := tid }],
        beat_schedule := dictInsert s1.beat_schedule tid
          { task := "openagent.task." ++ tid, schedule := some i,
            queue := "sequential_queue", expires := some (i - 1),
            ignore_result := true },
        events := s1.events ++
          [.info ("Scheduled Celery task " ++ tid)] }

/-- One iteration of the loop in `init_scheduled_tasks` (scheduler.py lines
32-62): queue-backed tasks go to `_init_celery_task`; every other task goes
to the local scheduler via the else branch, with the cron trigger when a
cron expression is set and the interval trigger otherwise (an absent
interval makes `IntervalTrigger(seconds=None)` raise a `TypeError`). -/
def initOne (s : SchedulerManager) (tid : String) (cfg : TaskConfig) :
    Except String SchedulerManager :=
  if cfg.schedule.type = "queue" then
    _init_celery_task s tid cfg
  else
    match cfg.cron with
    | some expr => add_job s tid (.cron expr) cfg
    | none =>
        match cfg.interval with
        | none => .error ("TypeError: interval seconds must be an int for task " ++ tid)
        | some i => add_job s tid (.interval i) cfg

/-- The registration loop of `init_scheduled_tasks`. -/
def initLoop (s : SchedulerManager) :
    List (String × TaskConfig) → Except String SchedulerManager
  | [] => .ok s
  | kv :: rest =>
      match initOne s kv.1 kv.2 with
      | .error e => .error e
      | .ok s1 => initLoop s1 rest

/-- `init_scheduled_tasks` (scheduler.py lines 23-67): runs the
registration loop over the task dict, then starts the local scheduler iff
some task has schedule type exactly "local".  After the loop the closed-over
loop variable `task_id` holds the last key iterated. -/
def init_scheduled_tasks (s : SchedulerManager)
    (tasks_config : List (String × TaskConfig)) :
    Except String SchedulerManager :=
  match initLoop s tasks_config with
  | .error e => .error e
  | .ok s1 =>
      let started := tasks_config.any (fun kv => kv.2.schedule.type = "local")
      .ok { s1 with
        localRunning := started,
        loopCellTaskId := (tasks_config.map Prod.fst).getLast? <|> s.loopCellTaskId,
        events := s1.events ++
          if started then [.okLog "Local scheduler started successfully"] else [] }

/-! ## Firing semantics -/

/-- One invocation of the local `task_wrapper` (scheduler.py lines 36-41).
`query` and `delay_variation` are the job's own `args`, bound by value at
registration; `cellTaskId` is the current value of the loop variable
`task_id`, which the wrapper's debug log closes over by reference — after
`init_scheduled_tasks` it holds the id of the task registered last.
`jitter` is the value drawn by `random.uniform(0, delay_variation)`.  The
wrapper has no exception handler: a runner error propagates to the
APScheduler executor, which logs it. -/
def fireLocalWrapper (cellTaskId : String) (job : LocalJob) (jitter : Int)
    (outcome : RunnerOutcome) : List Event :=
  (if job.args_delay_variation > 0 then
      [.debugSleep cellTaskId jitter]
   else []) ++
  [.runnerInvoked job.args_query] ++
  (match outcome with
   | .ok _ => []
   | .err e => [.errorLog ("Job " ++ job.id ++ " raised an exception: " ++ e)])

/-- A due firing of a registered local job as handled by the APScheduler
executor.  The source's `add_job` calls leave `max_instances` at
APScheduler's default of 1, so a firing that arrives while an instance of
the same job is still in flight is skipped: the executor logs exactly one
warning and neither invokes the callback nor reschedules the missed firing.
Returns the events together with whether the wrapper ran. -/
def localFireStep (running : Bool) (cellTaskId : String) (job : LocalJob)
    (jitter : Int) (outcome : RunnerOutcome) : List Event × Bool :=
  if running then
    ([.warning ("Execution of job " ++ job.name ++
        " skipped: maximum number of running instances reached (1)")], false)
  else
    (fireLocalWrapper cellTaskId job jitter outcome, true)

/-- Outcome of `Task.retry` as Celery defines it for a task configured with
a finite `max_retries`: when the current delivery's retry count has reached
the limit, no retry message is enqueued and the call raises the passed-in
exception; otherwise a retry message is enqueued (raising `Retry`). -/
inductive RetryResult where
  | raisesExc (exc : String)
  | enqueueRetry
deriving Repr, DecidableEq

def task_retry (max_retries : Nat) (request_retries : Nat) (exc : String) :
    RetryResult :=
  if request_retries + 1 > max_retries then .raisesExc exc
  else .enqueueRetry

/-- What the body of `celery_task` hands back to the Celery worker. -/
inductive CeleryOutcome where
  | returned (v : Option String)
  | raised (exc : String)
  | retryRequested
deriving Repr, DecidableEq

/-- The body of `celery_task` (scheduler.py lines 103-128) for one delivery
of the job of `tid`: if the nonlocal `task_running` flag is set, log one
warning and return `None`; otherwise set the flag, sleep the jitter when
`delay_variation > 0`, run the runner on a fresh event loop, and on an
exception log the error and call `self_task.retry(exc=exc)` (the task is
registered with `max_retries = 0` and this is its first delivery, so that
call enqueues nothing and re-raises the exception); the `finally` block
clears the flag on every exit path.  Returns the flag's final value, the
events, and the outcome handed to the worker. -/
def celery_task_body (tid : String) (cfg : TaskConfig) (jitter : Int)
    (outcome : RunnerOutcome) (task_running : Bool) :
    Bool × List Event × CeleryOutcome :=
  if task_running then
    (task_running,
     [.warning ("Task " ++ tid ++ " is already running, skipping this execution")],
     .returned none)
  else
    let jitterEvents : List Event :=
      if cfg.delay_variation > 0 then [.sleepJitter jitter] else []
    match outcome with
    | .ok r => (false, jitterEvents ++ [.runnerInvoked cfg.query], .returned (some r))
    | .err e =>
        (false,
         jitterEvents ++ [.runnerInvoked cfg.query,
           .errorLog ("Task " ++ tid ++ " failed: " ++ e)],
         match task_retry 0 0 e with
         | .raisesExc exc => .raised exc
         | .enqueueRetry => .retryRequested)

/-- What becomes of one delivered job after the worker has run the task
body. -/
structure DeliveryResult where
  flagAfter : Bool
  events : List Event
  completedValue : Option (Option String)
  failedWith : Option String
  reenqueued : Bool
  propagatedToManager : Bool
deriving Repr, DecidableEq

/-- The Celery worker's handling of one delivered job: the task body is
executed on the worker thread; a returned value completes the job; an
exception raised by the body is recorded as a failure for that task and the
job is acknowledged and dropped; only an explicit retry request re-enqueues
a message.  Exceptions from the task body are caught by the worker's tracer
and never reach any code outside the worker thread. -/
def workerHandleDelivery (tid : String) (cfg : TaskConfig) (jitter : Int)
    (outcome : RunnerOutcome) (task_running : Bool) : DeliveryResult :=
  match celery_task_body tid cfg jitter outcome task_running with
  | (flag, evs, .returned v) =>
      { flagAfter := flag, events := evs, completedValue := some v,
        failedWith := none, reenqueued := false, propagatedToManager := false }
  | (flag, evs, .raised exc) =>
      { flagAfter := flag, events := evs, completedValue := none,
        failedWith := some exc, reenqueued := false,
        propagatedToManager := false }
  | (flag, evs, .retryRequested) =>
      { flagAfter := flag, events := evs, completedValue := none,
        failedWith := none, reenqueued := true, propagatedToManager := false }

/-- Abstract actions on one task's execution guard: a firing trying to
start a run, and a run finishing. -/
inductive GuardAction where
  | tryStart
  | finish
deriving Repr, DecidableEq

/-- The guard discipline shared by both backends (the `task_running` flag
of `celery_task` and APScheduler's instance counter with
`max_instances = 1`): a firing starts a run only when none is in flight;
finishing clears the flag.  The state is the flag together with the number
of runs currently in flight. -/
def guardStep : Bool × Nat → GuardAction → Bool × Nat
  | (running, inflight), .tryStart =>
      if running then (running, inflight) else (true, inflight + 1)
  | (_, inflight), .finish => (false, inflight - 1)

def guardTrace (st : Bool × Nat) (acts : List GuardAction) : Bool × Nat :=
  acts.foldl guardStep st

/-- Execution trace of the solo-pool worker created by
`_start_celery_threads` (concurrency 1, prefetch 1): jobs are executed
inline on the worker thread one at a time, so each job starts exactly when
the previous one ends.  `durations` are the per-job run times, `t0` the
start of the first job; returned are the half-open execution intervals. -/
def soloTrace (durations : List Nat) (t0 : Nat) : List (Nat × Nat) :=
  match durations with
  | [] => []
  | d :: rest => (t0, t0 + d) :: soloTrace rest (t0 + d)

/-- A job message as published by Beat. -/
structure Job where
  task : String
  enqueuedAt : Int
  expiresAt : Option Int
deriving Repr, DecidableEq

/-- Beat publishing one due job from a beat-schedule entry at time `now`:
Celery interprets a numeric `expires` option as seconds counted from
publish time. -/
def beatEnqueue (opts : BeatOptions) (now : Int) : Job :=
  { task := opts.task, enqueuedAt := now,
    expiresAt := opts.expires.map (fun e => now + e) }

/-- `stop` (scheduler.py lines 178-198): no parameters.  It shuts down the
local scheduler when it is running (APScheduler's `shutdown()` defaults to
`wait=True`, waiting for in-flight runs); if the Celery app exists it
broadcasts a shutdown control message, joins the worker and beat threads
each with the hard-coded timeout of 5 seconds, and then purges the queue.
A join that times out is not detected: nothing is logged about it and
nothing is raised; `stop` always runs to completion.  `workerJoin` and
`beatJoin` are oracles for whether each join finished in time. -/
def stop (s : SchedulerManager) (workerJoin beatJoin : JoinOutcome) :
    SchedulerManager × List Event :=
  let localEvs : List Event :=
    if s.localRunning then
      [.localShutdown true, .info "Local task scheduler stopped"]
    else []
  let celeryEvs : List Event :=
    if s.celery_app.isSome then
      [.broadcastShutdown, .info "Celery worker and beat shutdown initiated"] ++
      (match s.worker_thread with
       | some t => [.joinThread t.name 5 workerJoin]
       | none => []) ++
      (match s.beat_thread with
       | some t => [.joinThread t.name 5 beatJoin]
       | none => []) ++
      [.purge, .info "Celery tasks purged"]
    else []
  ({ s with localRunning := false,
            events := s.events ++ localEvs ++ celeryEvs },
   localEvs ++ celeryEvs)

/-- Whether an event is a warning. -/
def Event.isWarning : Event → Bool
  | .warning _ => true
  | _ => false

/-- Whether an event is a runner invocation. -/
def Event.isRunnerInvoked : Event → Bool
  | .runnerInvoked _ => true
  | _ => false

/-- Whether an event is an error log. -/
def Event.isErrorLog : Event → Bool
  | .errorLog _ => true
  | _ => false

/-- The local job that registering task `tid` with configuration `cfg`
through the else branch of `init_scheduled_tasks` produces (when it
succeeds): id and name are bound by value, the wrapper arguments come from
the configuration by value. -/
def localJobOf (tid : String) (cfg : TaskConfig) : LocalJob :=
  { id := tid, name := "Task_" ++ tid,
    trigger :=
      match cfg.cron with
      | some expr => .cron expr
      | none => .interval (cfg.interval.getD 0),
    args_query := cfg.query,
    args_delay_variation := cfg.delay_variation }

/-- The worker configuration `_start_celery_threads` constructs. -/
def sequentialWorker : WorkerConfig :=
  { queues := ["sequential_queue"], concurrency := 1, pool := "solo" }

/-- The beat-schedule entry `_init_celery_task` stores for task `tid` with
interval `i`. -/
def beatEntryFor (tid : String) (i : Int) : BeatOptions :=
  { task := "openagent.task." ++ tid, schedule := some i,
    queue := "sequential_queue", expires := some (i - 1),
    ignore_result := true }

/-- The Celery app configuration `_init_celery_task` assembles from the
first queue-backed task. -/
def appConfFor (cfg : TaskConfig) : CeleryAppConf :=
  { broker := cfg.schedule.broker_url,
    backend := cfg.schedule.result_backend,
    task_acks_late := true,
    worker_prefetch_multiplier := 1,
    task_track_started := true,
    task_serializer := "json",
    accept_content := ["json"],
    result_serializer := "json",
    timezone := "UTC",
    enable_utc := true }

/-- The Celery app has been created with prefetch multiplier 1 and late
acks, and exactly one worker — the sequential solo worker — exists. -/
def WorkersSet (s : SchedulerManager) : Prop :=
  ∃ c, s.celery_app = some c ∧ c.worker_prefetch_multiplier = 1 ∧
    c.task_acks_late = true ∧ s.workers = [sequentialWorker] ∧
    s.worker_thread = some { name := "celery_worker_thread", daemon := true } ∧
    s.beat_thread = some { name := "celery_beat_thread", daemon := true }

/-- Either no Celery app exists yet and no worker was created, or the app
and exactly one sequential worker exist. -/
def WorkersInv (s : SchedulerManager) : Prop :=
  (s.celery_app = none ∧ s.workers = []) ∨ WorkersSet s

/-! ## Concrete example configurations used to instantiate the theorems -/

def exQueueCfg : TaskConfig :=
  { interval := some 10, query := "check the market",
    schedule := { type := "queue", broker_url := some "redis://localhost:6379/0",
                  result_backend := some "redis://localhost:6379/1" } }

def exLocalCfgA : TaskConfig :=
  { interval := some 5, delay_variation := 3, query := "qa" }

def exLocalCfgB : TaskConfig :=
  { interval := some 7, query := "qb" }

def ex6Tasks : List (String × TaskConfig) :=
  [("a", exLocalCfgA), ("b", exLocalCfgB)]

def ex6State : SchedulerManager :=
  match init_scheduled_tasks .new ex6Tasks with
  | .ok s => s
  | .error _ => .new

def exDefaultJob : LocalJob :=
  { id := "", name := "", trigger := .interval 0,
    args_query := "", args_delay_variation := 0 }

def ex5State : SchedulerManager :=
  match _init_celery_task .new "t" exQueueCfg with
  | .ok s => s
  | .error _ => .new

def ex4Tasks : List (String × TaskConfig) := [("t", exQueueCfg)]

def ex4State : SchedulerManager :=
  match init_scheduled_tasks .new ex4Tasks with
  | .ok s => s
  | .error _ => .new

def ex8Tasks : List (String × TaskConfig) :=
  [("t", { interval := some 5, query := "q1" }),
   ("t", { interval := some 7, query := "q2" })]

def ex8State : SchedulerManager :=
  match init_scheduled_tasks .new (dictOfList ex8Tasks) with
  | .ok s => s
  | .error _ => .new

def ex9State : SchedulerManager :=
  match init_scheduled_tasks .new [("t", exQueueCfg)] with
  | .ok s => s
  | .error _ => .new

def ex10Tasks : List (String × TaskConfig) :=
  [("x", { interval := some 5, query := "q",
           schedule := { type := "locall" } })]

def ex10State : SchedulerManager :=
  match init_scheduled_tasks .new ex10Tasks with
  | .ok s => s
  | .error _ => .new

/-! ## Helper lemmas about the dict model -/

theorem dictGet_insert_self {α : Type} (d : List (String × α)) (k : String)
    (v : α) : dictGet (dictInsert d k v) k = some v := by
  induction d with
  | nil => simp [dictInsert, dictGet]
  | cons kv rest ih =>
      obtain ⟨k', v'⟩ := kv
      by_cases h : k' = k
      · simp [dictInsert, dictGet, h]
      · simp [dictInsert, dictGet, h, ih]

theorem dictGet_insert_other {α : Type} (d : List (String × α))
    (k k' : String) (v : α) (h : k ≠ k') :
    dictGet (dictInsert d k' v) k = dictGet d k := by
  induction d with
  | nil => simp [dictInsert, dictGet, Ne.symm h]
  | cons kv rest ih =>
      obtain ⟨a, b⟩ := kv
      by_cases ha : a = k'
      · subst ha
        simp [dictInsert, dictGet, Ne.symm h]
      · by_cases hak : a = k
        · simp [dictInsert, dictGet, ha, hak, h]
        · simp [dictInsert, dictGet, ha, hak, ih]

theorem dictInsert_length_of_mem {α : Type} (d : List (String × α))
    (k : String) (v : α) (h : k ∈ d.map Prod.fst) :
    (dictInsert d k v).length = d.length := by
  induction d with
  | nil => simp at h
  | cons kv rest ih =>
      obtain ⟨a, b⟩ := kv
      by_cases ha : a = k
      · simp [dictInsert, ha]
      · rw [List.map_cons, List.mem_cons] at h
        rcases h with h | h
        · exact absurd h.symm ha
        · simp [dictInsert, ha, ih h]

theorem mem_keys_dictInsert {α : Type} (d : List (String × α))
    (a k : String) (v : α) :
    a ∈ (dictInsert d k v).map Prod.fst ↔ a ∈ d.map Prod.fst ∨ a = k := by
  induction d with
  | nil => simp [dictInsert]
  | cons kv rest ih =>
      obtain ⟨k', v'⟩ := kv
      by_cases h : k' = k
      · subst h
        by_cases hak : a = k' <;> simp [dictInsert, hak]
      · simp [dictInsert, h, ih]
        tauto

theorem keys_nodup_dictInsert {α : Type} (d : List (String × α)) (k : String)
    (v : α) (h : (d.map Prod.fst).Nodup) :
    ((dictInsert d k v).map Prod.fst).Nodup := by
  induction d with
  | nil => simp [dictInsert]
  | cons kv rest ih =>
      obtain ⟨k', v'⟩ := kv
      rw [List.map_cons, List.nodup_cons] at h
      by_cases hk : k' = k
      · subst hk
        have hred : dictInsert ((k', v') :: rest) k' v = (k', v) :: rest := by
          simp [dictInsert]
        rw [hred, List.map_cons, List.nodup_cons]
        exact ⟨h.1, h.2⟩
      · have hred : dictInsert ((k', v') :: rest) k v =
            (k', v') :: dictInsert rest k v := by
          simp [dictInsert, hk]
        rw [hred, List.map_cons, List.nodup_cons]
        refine ⟨?_, ih h.2⟩
        intro hcontra
        rw [mem_keys_dictInsert] at hcontra
        rcases hcontra with hmem | heq
        · exact h.1 hmem
        · exact hk heq

theorem keys_nodup_dictOfList {α : Type} (l : List (String × α)) :
    ((dictOfList l).map Prod.fst).Nodup := by
  suffices h : ∀ d : List (String × α), (d.map Prod.fst).Nodup →
      ((l.foldl (fun d kv => dictInsert d kv.1 kv.2) d).map Prod.fst).Nodup by
    exact h [] (by simp)
  induction l with
  | nil => intro d hd; simpa
  | cons kv rest ih =>
      intro d hd
      exact ih (dictInsert d kv.1 kv.2) (keys_nodup_dictInsert d kv.1 kv.2 hd)

/-! ## Helper lemmas about the solo worker trace and the guard -/

theorem soloTrace_start_ge (durations : List Nat) (t0 : Nat) :
    ∀ p ∈ soloTrace durations t0, t0 ≤ p.1 := by
  induction durations generalizing t0 with
  | nil => simp [soloTrace]
  | cons d rest ih =>
      intro p hp
      simp only [soloTrace, List.mem_cons] at hp
      rcases hp with h | h
      · simp [h]
      · exact le_trans (Nat.le_add_right t0 d) (ih (t0 + d) p h)

theorem soloTrace_pairwise (durations : List Nat) (t0 : Nat) :
    (soloTrace durations t0).Pairwise (fun a b => a.2 ≤ b.1) := by
  induction durations generalizing t0 with
  | nil => simp [soloTrace]
  | cons d rest ih =>
      refine List.Pairwise.cons ?_ (ih (t0 + d))
      intro b hb
      exact soloTrace_start_ge rest (t0 + d) b hb

theorem guardTrace_flag_counts (acts : List GuardAction) (st : Bool × Nat)
    (h : st.2 = bif st.1 then 1 else 0) :
    (guardTrace st acts).2 = bif (guardTrace st acts).1 then 1 else 0 := by
  induction acts generalizing st with
  | nil => simpa [guardTrace]
  | cons a rest ih =>
      have hstep : guardTrace st (a :: rest) = guardTrace (guardStep st a) rest := by
        simp [guardTrace]
      rw [hstep]
      apply ih
      obtain ⟨flag, n⟩ := st
      cases a with
      | tryStart =>
          cases flag with
          | true => simpa [guardStep] using h
          | false => simp [guardStep] at h ⊢; omega
      | finish =>
          cases flag with
          | true => simp [guardStep] at h ⊢; omega
          | false => simp [guardStep] at h ⊢; omega

theorem guardTrace_atMostOne (acts : List GuardAction) :
    (guardTrace (false, 0) acts).2 ≤ 1 := by
  have h := guardTrace_flag_counts acts (false, 0) (by simp)
  rw [h]
  cases (guardTrace (false, 0) acts).1 <;> simp

/-! ## Characterization of the registration functions -/

theorem add_job_ok {s s' : SchedulerManager} {tid : String} {trig : Trigger}
    {cfg : TaskConfig} (h : add_job s tid trig cfg = .ok s') :
    tid ∉ s.localJobs.map LocalJob.id ∧
    s'.localJobs = s.localJobs ++
      [{ id := tid, name := "Task_" ++ tid, trigger := trig,
         args_query := cfg.query,
         args_delay_variation := cfg.delay_variation }] ∧
    s'.localRunning = s.localRunning ∧
    s'.beat_schedule = s.beat_schedule ∧
    s'.celeryTasks = s.celeryTasks ∧
    s'.workers = s.workers ∧
    s'.celery_app = s.celery_app ∧
    s'.worker_thread = s.worker_thread ∧
    s'.beat_thread = s.beat_thread := by
  unfold add_job at h
  by_cases hmem : tid ∈ s.localJobs.map LocalJob.id
  · rw [if_pos hmem] at h
    exact absurd h (by simp)
  · rw [if_neg hmem] at h
    rw [Except.ok.injEq] at h
    subst h
    exact ⟨hmem, rfl, rfl, rfl, rfl, rfl, rfl, rfl, rfl⟩

theorem _init_celery_task_ok {s s' : SchedulerManager} {tid : String}
    {cfg : TaskConfig} (h : _init_celery_task s tid cfg = .ok s') :
    ∃ i, cfg.interval = some i ∧
      s'.localJobs = s.localJobs ∧
      s'.localRunning = s.localRunning ∧
      s'.beat_schedule = dictInsert s.beat_schedule tid
        { task := "openagent.task." ++ tid, schedule := some i,
          queue := "sequential_queue", expires := some (i - 1),
          ignore_result := true } ∧
      s'.celeryTasks = s.celeryTasks ++
        [{ name := "openagent.task." ++ tid, bind := true, max_retries := 0,
           default_retry_delay := 0, task_id := tid }] ∧
      ((s.celery_app = none ∧ s'.celery_app = some (appConfFor cfg) ∧
        s'.workers = s.workers ++ [sequentialWorker] ∧
        s'.worker_thread = some { name := "celery_worker_thread", daemon := true } ∧
        s'.beat_thread = some { name := "celery_beat_thread", daemon := true }) ∨
       (s.celery_app.isSome ∧ s'.celery_app = s.celery_app ∧
        s'.workers = s.workers ∧ s'.worker_thread = s.worker_thread ∧
        s'.beat_thread = s.beat_thread)) := by
  unfold _init_celery_task at h
  cases hi : cfg.interval with
  | none =>
      rw [hi] at h
      cases happ : s.celery_app <;> simp [happ] at h
  | some i =>
      rw [hi] at h
      refine ⟨i, rfl, ?_⟩
      cases happ : s.celery_app with
      | none =>
          simp only [happ, Option.isNone_none, if_true, _start_celery_threads] at h
          rw [Except.ok.injEq] at h
          subst h
          refine ⟨rfl, rfl, rfl, rfl, ?_⟩
          exact Or.inl ⟨rfl, rfl, rfl, rfl, rfl⟩
      | some c =>
          simp only [happ, Option.isNone_some, if_false] at h
          rw [Except.ok.injEq] at h
          subst h
          refine ⟨rfl, rfl, rfl, rfl, ?_⟩
          exact Or.inr ⟨by simp [happ], by simp [happ], rfl, rfl, rfl⟩

theorem initOne_cases {s s' : SchedulerManager} {tid : String}
    {cfg : TaskConfig} (h : initOne s tid cfg = .ok s') :
    (cfg.schedule.type = "queue" ∧ _init_celery_task s tid cfg = .ok s') ∨
    (cfg.schedule.type ≠ "queue" ∧
     s'.localJobs = s.localJobs ++ [localJobOf tid cfg] ∧
     tid ∉ s.localJobs.map LocalJob.id ∧
     s'.localRunning = s.localRunning ∧
     s'.beat_schedule = s.beat_schedule ∧
     s'.celeryTasks = s.celeryTasks ∧
     s'.workers = s.workers ∧
     s'.celery_app = s.celery_app ∧
     s'.worker_thread = s.worker_thread ∧
     s'.beat_thread = s.beat_thread) := by
  unfold initOne at h
  by_cases hq : cfg.schedule.type = "queue"
  · rw [if_pos hq] at h
    exact Or.inl ⟨hq, h⟩
  · rw [if_neg hq] at h
    refine Or.inr ⟨hq, ?_⟩
    cases hc : cfg.cron with
    | some expr =>
        rw [hc] at h
        obtain ⟨hmem, hjobs, hrun, hbeat, hct, hw, happ, hwt, hbt⟩ := add_job_ok h
        exact ⟨by rw [hjobs]; simp [localJobOf, hc], hmem, hrun, hbeat, hct,
               hw, happ, hwt, hbt⟩
    | none =>
        rw [hc] at h
        cases hi : cfg.interval with
        | none => rw [hi] at h; exact absurd h (by simp)
        | some i =>
            rw [hi] at h
            obtain ⟨hmem, hjobs, hrun, hbeat, hct, hw, happ, hwt, hbt⟩ := add_job_ok h
            exact ⟨by rw [hjobs]; simp [localJobOf, hc, hi], hmem, hrun, hbeat,
                   hct, hw, happ, hwt, hbt⟩

theorem initLoop_cons_inv {s : SchedulerManager} {kv : String × TaskConfig}
    {rest : List (String × TaskConfig)} {s' : SchedulerManager}
    (h : initLoop s (kv :: rest) = .ok s') :
    ∃ s1, initOne s kv.1 kv.2 = .ok s1 ∧ initLoop s1 rest = .ok s' := by
  unfold initLoop at h
  cases hone : initOne s kv.1 kv.2 with
  | error e => rw [hone] at h; exact absurd h (by simp)
  | ok s1 => rw [hone] at h; exact ⟨s1, rfl, h⟩

theorem init_scheduled_tasks_inv {s : SchedulerManager}
    {tasks : List (String × TaskConfig)} {s' : SchedulerManager}
    (h : init_scheduled_tasks s tasks = .ok s') :
    ∃ s1, initLoop s tasks = .ok s1 ∧
      s' = { s1 with
        localRunning := tasks.any (fun kv => kv.2.schedule.type = "local"),
        loopCellTaskId := (tasks.map Prod.fst).getLast? <|> s.loopCellTaskId,
        events := s1.events ++
          if tasks.any (fun kv => kv.2.schedule.type = "local") then
            [.okLog "Local scheduler started successfully"]
          else [] } := by
  unfold init_scheduled_tasks at h
  cases hl : initLoop s tasks with
  | error e => rw [hl] at h; exact absurd h (by simp)
  | ok s1 =>
      rw [hl] at h
      rw [Except.ok.injEq] at h
      exact ⟨s1, rfl, h.symm⟩

/-! ## Loop-level lemmas -/

theorem initLoop_nil_inv {s s' : SchedulerManager}
    (h : initLoop s [] = .ok s') : s' = s := by
  unfold initLoop at h
  rw [Except.ok.injEq] at h
  exact h.symm

theorem initLoop_beat_other {tasks : List (String × TaskConfig)} :
    ∀ {s s' : SchedulerManager} {tid : String},
    tid ∉ tasks.map Prod.fst → initLoop s tasks = .ok s' →
    dictGet s'.beat_schedule tid = dictGet s.beat_schedule tid := by
  induction tasks with
  | nil =>
      intro s s' tid _ h
      rw [initLoop_nil_inv h]
  | cons kv rest ih =>
      intro s s' tid hmem h
      rw [List.map_cons, List.mem_cons] at hmem
      push_neg at hmem
      obtain ⟨s1, h1, h2⟩ := initLoop_cons_inv h
      have hstep : dictGet s1.beat_schedule tid = dictGet s.beat_schedule tid := by
        rcases initOne_cases h1 with ⟨hq, hc⟩ | ⟨_, _, _, _, hbeat, _⟩
        · obtain ⟨i, _, _, _, hbeat, _, _⟩ := _init_celery_task_ok hc
          rw [hbeat]
          exact dictGet_insert_other _ tid kv.1 _ hmem.1
        · rw [hbeat]
      rw [ih hmem.2 h2, hstep]

theorem initLoop_beat_mem {tasks : List (String × TaskConfig)} :
    ∀ {s s' : SchedulerManager} {tid : String} {cfg : TaskConfig} {i : Int},
    (tid, cfg) ∈ tasks → (tasks.map Prod.fst).Nodup →
    cfg.schedule.type = "queue" → cfg.interval = some i →
    initLoop s tasks = .ok s' →
    dictGet s'.beat_schedule tid = some
      { task := "openagent.task." ++ tid, schedule := some i,
        queue := "sequential_queue", expires := some (i - 1),
        ignore_result := true } := by
  induction tasks with
  | nil => intro s s' tid cfg i hmem; simp at hmem
  | cons kv rest ih =>
      intro s s' tid cfg i hmem hnodup hq hi h
      rw [List.map_cons, List.nodup_cons] at hnodup
      obtain ⟨s1, h1, h2⟩ := initLoop_cons_inv h
      rcases List.mem_cons.mp hmem with heq | hmem'
      · have hkv1 : kv.1 = tid := by rw [← heq]
        have hkv2 : kv.2 = cfg := by rw [← heq]
        rw [hkv1, hkv2] at h1
        rcases initOne_cases h1 with ⟨_, hc⟩ | ⟨hq', _⟩
        · obtain ⟨i', hi', _, _, hbeat, _, _⟩ := _init_celery_task_ok hc
          rw [hi] at hi'
          rw [Option.some.injEq] at hi'
          subst hi'
          have hget : dictGet s1.beat_schedule tid = some
              { task := "openagent.task." ++ tid, schedule := some i,
                queue := "sequential_queue", expires := some (i - 1),
                ignore_result := true } := by
            rw [hbeat]
            exact dictGet_insert_self _ tid _
          have hpres := initLoop_beat_other (by rw [hkv1] at hnodup; exact hnodup.1) h2
          rw [hpres, hget]
        · exact absurd hq hq'
      · exact ih hmem' hnodup.2 hq hi h2

theorem initOne_workersSet {s s' : SchedulerManager} {tid : String}
    {cfg : TaskConfig} (h : initOne s tid cfg = .ok s')
    (hinv : WorkersInv s) : WorkersInv s' ∧
    (cfg.schedule.type = "queue" → WorkersSet s') := by
  rcases initOne_cases h with ⟨hq, hc⟩ |
      ⟨hq, _, _, _, _, _, hw, happ, hwt, hbt⟩
  · obtain ⟨i, _, _, _, _, _, hdisj⟩ := _init_celery_task_ok hc
    rcases hdisj with ⟨hnone, happ', hw', hwt', hbt'⟩ | ⟨hsome, happ', hw', hwt', hbt'⟩
    · have hset : WorkersSet s' := by
        rcases hinv with ⟨_, hwnil⟩ | ⟨c, hcapp, _⟩
        · exact ⟨appConfFor cfg, happ', rfl, rfl,
                 by rw [hw', hwnil, List.nil_append], hwt', hbt'⟩
        · rw [hnone] at hcapp; exact absurd hcapp (by simp)
      exact ⟨Or.inr hset, fun _ => hset⟩
    · have hset : WorkersSet s' := by
        rcases hinv with ⟨hnone', _⟩ | ⟨c, hcapp, hp, ha, hws, hwt'', hbt''⟩
        · rw [hnone'] at hsome; exact absurd hsome (by simp)
        · exact ⟨c, by rw [happ']; exact hcapp, hp, ha, by rw [hw']; exact hws,
                 by rw [hwt']; exact hwt'', by rw [hbt']; exact hbt''⟩
      exact ⟨Or.inr hset, fun _ => hset⟩
  · constructor
    · rcases hinv with ⟨h1, h2⟩ | ⟨c, h1, hp, ha, hws, hwt', hbt'⟩
      · exact Or.inl ⟨by rw [happ]; exact h1, by rw [hw]; exact h2⟩
      · exact Or.inr ⟨c, by rw [happ]; exact h1, hp, ha, by rw [hw]; exact hws,
                      by rw [hwt]; exact hwt', by rw [hbt]; exact hbt'⟩
    · intro hq'
      exact absurd hq' hq

theorem initLoop_workersInv {tasks : List (String × TaskConfig)} :
    ∀ {s s' : SchedulerManager}, WorkersInv s → initLoop s tasks = .ok s' →
    WorkersInv s' := by
  induction tasks with
  | nil => intro s s' hinv h; rw [initLoop_nil_inv h]; exact hinv
  | cons kv rest ih =>
      intro s s' hinv h
      obtain ⟨s1, h1, h2⟩ := initLoop_cons_inv h
      exact ih (initOne_workersSet h1 hinv).1 h2

theorem workersSet_workersInv {s : SchedulerManager} (h : WorkersSet s) :
    WorkersInv s := Or.inr h

theorem initOne_workersSet_preserved {s s' : SchedulerManager} {tid : String}
    {cfg : TaskConfig} (h : initOne s tid cfg = .ok s')
    (hset : WorkersSet s) : WorkersSet s' := by
  have := (initOne_workersSet h (workersSet_workersInv hset)).1
  rcases this with ⟨happnone, _⟩ | hset'
  · obtain ⟨c, hcapp, _⟩ := hset
    rcases initOne_cases h with ⟨_, hc⟩ | ⟨_, _, _, _, _, _, _, happ, _⟩
    · obtain ⟨i, _, _, _, _, _, hdisj⟩ := _init_celery_task_ok hc
      rcases hdisj with ⟨hnone, _⟩ | ⟨_, happ', _⟩
      · rw [hnone] at hcapp; exact absurd hcapp (by simp)
      · rw [happ', hcapp] at happnone; exact absurd happnone (by simp)
    · rw [happ, hcapp] at happnone; exact absurd happnone (by simp)
  · exact hset'

theorem initLoop_workersSet {tasks : List (String × TaskConfig)} :
    ∀ {s s' : SchedulerManager}, WorkersSet s → initLoop s tasks = .ok s' →
    WorkersSet s' := by
  induction tasks with
  | nil => intro s s' hset h; rw [initLoop_nil_inv h]; exact hset
  | cons kv rest ih =>
      intro s s' hset h
      obtain ⟨s1, h1, h2⟩ := initLoop_cons_inv h
      exact ih (initOne_workersSet_preserved h1 hset) h2

theorem initLoop_queue_workers {tasks : List (String × TaskConfig)} :
    ∀ {s s' : SchedulerManager} {tid : String} {cfg : TaskConfig},
    (tid, cfg) ∈ tasks → cfg.schedule.type = "queue" → WorkersInv s →
    initLoop s tasks = .ok s' → WorkersSet s' := by
  induction tasks with
  | nil => intro s s' tid cfg hmem; simp at hmem
  | cons kv rest ih =>
      intro s s' tid cfg hmem hq hinv h
      obtain ⟨s1, h1, h2⟩ := initLoop_cons_inv h
      rcases List.mem_cons.mp hmem with heq | hmem'
      · have hkv2 : kv.2 = cfg := by rw [← heq]
        have hset : WorkersSet s1 :=
          (initOne_workersSet h1 hinv).2 (by rw [hkv2]; exact hq)
        exact initLoop_workersSet hset h2
      · exact ih hmem' hq (initOne_workersSet h1 hinv).1 h2

theorem initLoop_localJobs_from {tasks : List (String × TaskConfig)} :
    ∀ {s s' : SchedulerManager}, initLoop s tasks = .ok s' →
    ∀ job ∈ s'.localJobs,
      job ∈ s.localJobs ∨ ∃ kv ∈ tasks, job = localJobOf kv.1 kv.2 := by
  induction tasks with
  | nil =>
      intro s s' h job hj
      rw [initLoop_nil_inv h] at hj
      exact Or.inl hj
  | cons kv rest ih =>
      intro s s' h job hj
      obtain ⟨s1, h1, h2⟩ := initLoop_cons_inv h
      rcases ih h2 job hj with hin | ⟨kv', hkv', heq⟩
      · rcases initOne_cases h1 with ⟨_, hc⟩ | ⟨_, hjobs, _⟩
        · obtain ⟨i, _, hjobs, _⟩ := _init_celery_task_ok hc
          rw [hjobs] at hin
          exact Or.inl hin
        · rw [hjobs] at hin
          rw [List.mem_append] at hin
          rcases hin with hin | hin
          · exact Or.inl hin
          · rw [List.mem_singleton] at hin
            exact Or.inr ⟨kv, List.mem_cons_self kv rest, hin⟩
      · exact Or.inr ⟨kv', List.mem_cons_of_mem kv hkv', heq⟩

theorem add_job_succeeds (s : SchedulerManager) (tid : String)
    (trig : Trigger) (cfg : TaskConfig)
    (hmem : tid ∉ s.localJobs.map LocalJob.id) :
    ∃ s1, add_job s tid trig cfg = .ok s1 ∧
      s1.localJobs = s.localJobs ++
        [{ id := tid, name := "Task_" ++ tid, trigger := trig,
           args_query := cfg.query,
           args_delay_variation := cfg.delay_variation }] ∧
      s1.localRunning = s.localRunning := by
  unfold add_job
  rw [if_neg hmem]
  exact ⟨_, rfl, rfl, rfl⟩

theorem initOne_local_succeeds {s : SchedulerManager} {tid : String}
    {cfg : TaskConfig} (hq : cfg.schedule.type ≠ "queue")
    (ht : cfg.cron.isSome ∨ cfg.interval.isSome)
    (hmem : tid ∉ s.localJobs.map LocalJob.id) :
    ∃ s1, initOne s tid cfg = .ok s1 ∧
      s1.localJobs = s.localJobs ++ [localJobOf tid cfg] ∧
      s1.localRunning = s.localRunning := by
  unfold initOne
  rw [if_neg hq]
  cases hc : cfg.cron with
  | some expr =>
      obtain ⟨s1, ha, hjobs, hrun⟩ :=
        add_job_succeeds s tid (Trigger.cron expr) cfg hmem
      exact ⟨s1, ha, by rw [hjobs]; simp [localJobOf, hc], hrun⟩
  | none =>
      cases hi : cfg.interval with
      | none => rw [hc, hi] at ht; simp at ht
      | some i =>
          obtain ⟨s1, ha, hjobs, hrun⟩ :=
            add_job_succeeds s tid (Trigger.interval i) cfg hmem
          exact ⟨s1, ha, by rw [hjobs]; simp [localJobOf, hc, hi], hrun⟩

theorem initLoop_local_all {tasks : List (String × TaskConfig)} :
    ∀ {s : SchedulerManager},
    (∀ kv ∈ tasks, kv.2.schedule.type ≠ "queue" ∧
      (kv.2.cron.isSome ∨ kv.2.interval.isSome)) →
    (∀ kv ∈ tasks, kv.1 ∉ s.localJobs.map LocalJob.id) →
    (tasks.map Prod.fst).Nodup →
    ∃ s', initLoop s tasks = .ok s' ∧
      s'.localJobs.map LocalJob.id =
        s.localJobs.map LocalJob.id ++ tasks.map Prod.fst ∧
      s'.localRunning = s.localRunning := by
  induction tasks with
  | nil =>
      intro s _ _ _
      exact ⟨s, rfl, by simp, rfl⟩
  | cons kv rest ih =>
      intro s hall hfresh hnodup
      rw [List.map_cons, List.nodup_cons] at hnodup
      have hhead := hall kv (List.mem_cons_self kv rest)
      obtain ⟨s1, h1, hjobs1, hrun1⟩ :=
        initOne_local_succeeds hhead.1 hhead.2
          (hfresh kv (List.mem_cons_self kv rest))
      have hids1 : s1.localJobs.map LocalJob.id =
          s.localJobs.map LocalJob.id ++ [kv.1] := by
        rw [hjobs1, List.map_append]
        rfl
      have hfresh1 : ∀ kv' ∈ rest, kv'.1 ∉ s1.localJobs.map LocalJob.id := by
        intro kv' hkv'
        rw [hids1, List.mem_append, List.mem_singleton]
        push_neg
        refine ⟨hfresh kv' (List.mem_cons_of_mem kv hkv'), ?_⟩
        intro hcontra
        exact hnodup.1 (hcontra ▸ List.mem_map_of_mem Prod.fst hkv')
      obtain ⟨s', h2, hids2, hrun2⟩ :=
        ih (fun kv' hkv' => hall kv' (List.mem_cons_of_mem kv hkv'))
          hfresh1 hnodup.2
      refine ⟨s', ?_, ?_, by rw [hrun2, hrun1]⟩
      · unfold initLoop
        rw [h1]
        exact h2
      · rw [hids2, hids1, List.map_cons, List.append_assoc]
        rfl

/-! ## Claim theorems -/

/-- C1: on both backends at most one execution per task is in flight at any
time: a firing that arrives while a previous run of the same task id is
still running logs exactly one warning, returns without invoking the
runner, and is never queued for later execution — for the queue backend the
`celery_task` body returns `None` after one warning and the worker drops
the (completed) job, and for the local backend the APScheduler executor
(max_instances 1) emits one warning and skips; the guard discipline keeps
the number of in-flight runs at most one along any action sequence. -/
theorem C1_skip_if_running (tid : String) (cfg : TaskConfig) (jitter : Int)
    (o : RunnerOutcome) (cell : String) (job : LocalJob)
    (acts : List GuardAction) :
    celery_task_body tid cfg jitter o true =
      (true,
       [.warning ("Task " ++ tid ++ " is already running, skipping this execution")],
       .returned none)
    ∧ ((celery_task_body tid cfg jitter o true).2.1.filter Event.isWarning).length = 1
    ∧ (celery_task_body tid cfg jitter o true).2.1.filter Event.isRunnerInvoked = []
    ∧ (workerHandleDelivery tid cfg jitter o true).reenqueued = false
    ∧ localFireStep true cell job jitter o =
        ([.warning ("Execution of job " ++ job.name ++
           " skipped: maximum number of running instances reached (1)")], false)
    ∧ (localFireStep true cell job jitter o).1.filter Event.isRunnerInvoked = []
    ∧ (guardTrace (false, 0) acts).2 ≤ 1 :=
  ⟨rfl, rfl, rfl, rfl, rfl, rfl, guardTrace_atMostOne acts⟩

/-- C2 is false on the code: task-config validation accepts an empty query
together with both interval and cron set (even under the validators as
declared in the source), accepts a queue schedule missing both URLs,
accepts an interval of 0, and accepts a config with neither interval nor
cron. -/
theorem C2_counterexample :
    exceptOk (RawTaskConfig.validate
      { interval := some 5, query := some "", cron := some "* * * * *" }) = true
    ∧ exceptOk (RawTaskConfig.validateDeclared
      { interval := some 5, query := some "", cron := some "* * * * *" }) = true
    ∧ exceptOk (RawTaskConfig.validate
      { query := some "q", schedule := some { type := some "queue" } }) = true
    ∧ exceptOk (RawTaskConfig.validate
      { interval := some 0, query := some "q" }) = true
    ∧ exceptOk (RawTaskConfig.validate { query := some "q" }) = true :=
  ⟨rfl, rfl, rfl, rfl, rfl⟩

/-- C2 (amended): task-config validation never panics, but it rejects only
a missing `query` field (and, for a supplied schedule, a missing `type`
field); every other raw task configuration is accepted — in particular one
with an interval less than 1, an empty query, both interval and cron set,
neither set, or a queue backend missing the broker and result-backend URLs
(the validators declared in the source are never registered because
`classmethod` is applied outside `field_validator`, and no empty-query /
both-set / neither-set check exists at all). -/
theorem C2_validation_accepts (r : RawTaskConfig) :
    exceptOk (RawTaskConfig.validate r) =
      (r.query.isSome && (match r.schedule with
        | none => true
        | some rs => rs.type.isSome)) := by
  obtain ⟨i, dv, q, c, sch⟩ := r
  cases q with
  | none =>
      cases sch with
      | none => rfl
      | some rs =>
          obtain ⟨t, b, rb⟩ := rs
          cases t <;> rfl
  | some q' =>
      cases sch with
      | none => rfl
      | some rs =>
          obtain ⟨t, b, rb⟩ := rs
          cases t <;> rfl

/-- C3: in the queue backend's per-job execution the `task_running` flag is
cleared on every exit path — normal return, runner error (including the
re-raise provoked by `retry` with `max_retries = 0`), and the path through
the jitter sleep — a skip leaves the flag to the run that holds it, and a
firing that follows a failed run is not skipped: its runner is invoked. -/
theorem C3_flag_cleared_on_all_paths (tid : String) (cfg : TaskConfig)
    (j j2 : Int) (o : RunnerOutcome) (e r : String) :
    (celery_task_body tid cfg j o false).1 = false
    ∧ (workerHandleDelivery tid cfg j (.err e) false).flagAfter = false
    ∧ (workerHandleDelivery tid cfg j (.ok r) false).flagAfter = false
    ∧ (celery_task_body tid cfg j o true).1 = true
    ∧ (celery_task_body tid cfg j2 (.ok r)
        ((celery_task_body tid cfg j (.err e) false).1)).2.1.filter
          Event.isRunnerInvoked = [.runnerInvoked cfg.query] := by
  refine ⟨?_, rfl, rfl, rfl, ?_⟩
  · cases o <;> rfl
  · by_cases h : cfg.delay_variation > 0 <;>
      simp [celery_task_body, Event.isRunnerInvoked, h]

/-- C5: on a runner error in the queue backend the failure is logged with
the task id, the task was registered with `max_retries = 0` so
`retry(exc=exc)` enqueues nothing and re-raises, the worker records the
failure and drops the job without re-enqueueing it, and nothing propagates
to the scheduler's caller. -/
theorem C5_failure_dropped (s s' : SchedulerManager) (tid : String)
    (cfg : TaskConfig) (jitter : Int) (e : String)
    (h : _init_celery_task s tid cfg = .ok s') :
    (∃ reg ∈ s'.celeryTasks, reg.task_id = tid ∧ reg.max_retries = 0 ∧
       reg.name = "openagent.task." ++ tid)
    ∧ task_retry 0 0 e = .raisesExc e
    ∧ Event.errorLog ("Task " ++ tid ++ " failed: " ++ e) ∈
        (celery_task_body tid cfg jitter (.err e) false).2.1
    ∧ (workerHandleDelivery tid cfg jitter (.err e) false).failedWith = some e
    ∧ (workerHandleDelivery tid cfg jitter (.err e) false).reenqueued = false
    ∧ (workerHandleDelivery tid cfg jitter (.err e) false).propagatedToManager
        = false := by
  obtain ⟨i, hi, _, _, _, hct, _⟩ := _init_celery_task_ok h
  refine ⟨?_, rfl, ?_, rfl, rfl, rfl⟩
  · refine ⟨{ name := "openagent.task." ++ tid, bind := true, max_retries := 0,
              default_retry_delay := 0, task_id := tid }, ?_, rfl, rfl, rfl⟩
    rw [hct]
    exact List.mem_append_right _ (List.mem_singleton.mpr rfl)
  · by_cases hd : cfg.delay_variation > 0 <;>
      simp [celery_task_body, hd, task_retry]

/-- Witness for C5 at a concrete queue-backed task. -/
theorem C5_failure_dropped_witness :
    (∃ reg ∈ ex5State.celeryTasks, reg.task_id = "t" ∧ reg.max_retries = 0 ∧
       reg.name = "openagent.task." ++ "t")
    ∧ task_retry 0 0 "boom" = .raisesExc "boom"
    ∧ Event.errorLog ("Task " ++ "t" ++ " failed: " ++ "boom") ∈
        (celery_task_body "t" exQueueCfg 0 (.err "boom") false).2.1
    ∧ (workerHandleDelivery "t" exQueueCfg 0 (.err "boom") false).failedWith
        = some "boom"
    ∧ (workerHandleDelivery "t" exQueueCfg 0 (.err "boom") false).reenqueued
        = false
    ∧ (workerHandleDelivery "t" exQueueCfg 0 (.err "boom") false).propagatedToManager
        = false :=
  C5_failure_dropped .new ex5State "t" exQueueCfg 0 "boom" rfl

/-- C4: when at least one queue-backed task is registered, exactly one
worker exists, configured with concurrency 1, a solo pool and the single
queue "sequential_queue"; the app prefetch multiplier is 1; and the solo
worker's execution intervals are pairwise non-overlapping. -/
theorem C4_single_sequential_worker (tasks : List (String × TaskConfig))
    (tid : String) (cfg : TaskConfig) (s' : SchedulerManager)
    (durations : List Nat)
    (hmem : (tid, cfg) ∈ tasks) (hq : cfg.schedule.type = "queue")
    (hok : init_scheduled_tasks .new tasks = .ok s') :
    s'.workers = [{ queues := ["sequential_queue"], concurrency := 1,
                    pool := "solo" }]
    ∧ (∃ c, s'.celery_app = some c ∧ c.worker_prefetch_multiplier = 1 ∧
         c.task_acks_late = true)
    ∧ (soloTrace durations 0).Pairwise (fun a b => a.2 ≤ b.1) := by
  obtain ⟨s1, hl, hs'⟩ := init_scheduled_tasks_inv hok
  have hset : WorkersSet s1 :=
    initLoop_queue_workers hmem hq (Or.inl ⟨rfl, rfl⟩) hl
  obtain ⟨c, hcapp, hp, ha, hw, _, _⟩ := hset
  subst hs'
  refine ⟨?_, ⟨c, ?_, hp, ha⟩, soloTrace_pairwise durations 0⟩
  · show s1.workers = _
    rw [hw]
    rfl
  · show s1.celery_app = some c
    exact hcapp

/-- Witness for C4 at a concrete one-task queue configuration. -/
theorem C4_single_sequential_worker_witness :
    ex4State.workers = [{ queues := ["sequential_queue"], concurrency := 1,
                          pool := "solo" }]
    ∧ (∃ c, ex4State.celery_app = some c ∧ c.worker_prefetch_multiplier = 1 ∧
         c.task_acks_late = true)
    ∧ (soloTrace [3, 5, 2] 0).Pairwise (fun a b => a.2 ≤ b.1) :=
  C4_single_sequential_worker ex4Tasks "t" exQueueCfg ex4State [3, 5, 2]
    (List.mem_cons_self _ _) rfl rfl

/-- C6 is false on the code: registering two local tasks and firing the
first one's wrapper makes the jitter debug log name the id of the task
registered last ("b"), not the id of the firing task's own registration
("a") — the loop variable `task_id` is captured by reference. -/
theorem C6_counterexample :
    (ex6State.localJobs.headD exDefaultJob).id = "a"
    ∧ (ex6State.localJobs.headD exDefaultJob).args_query = "qa"
    ∧ ex6State.loopCellTaskId = some "b"
    ∧ fireLocalWrapper ((ex6State.loopCellTaskId).getD "")
        (ex6State.localJobs.headD exDefaultJob) 1 (.ok "r")
      = [.debugSleep "b" 1, .runnerInvoked "qa"]
    ∧ ("b" : String) ≠ "a" :=
  ⟨rfl, rfl, rfl, rfl, by decide⟩

/-- C6 (amended): each local registration captures its own query and delay
variation by value through `args`, and its own id by value into the job's
id; but the task id appearing in the wrapper's jitter debug log is captured
by reference to the loop variable and at firing time holds the id of the
task registered last, not necessarily the firing task's own id. -/
theorem C6_capture_semantics (tasks : List (String × TaskConfig))
    (s' : SchedulerManager) (job : LocalJob) (jitter : Int)
    (o : RunnerOutcome)
    (hok : init_scheduled_tasks .new tasks = .ok s')
    (hjob : job ∈ s'.localJobs) :
    (∃ kv ∈ tasks, job.id = kv.1 ∧ job.args_query = kv.2.query ∧
       job.args_delay_variation = kv.2.delay_variation)
    ∧ s'.loopCellTaskId = (tasks.map Prod.fst).getLast?
    ∧ fireLocalWrapper ((s'.loopCellTaskId).getD "") job jitter o =
        (if job.args_delay_variation > 0 then
           [.debugSleep ((s'.loopCellTaskId).getD "") jitter] else []) ++
        [.runnerInvoked job.args_query] ++
        (match o with
         | .ok _ => []
         | .err e => [.errorLog ("Job " ++ job.id ++ " raised an exception: " ++ e)]) := by
  obtain ⟨s1, hl, hs'⟩ := init_scheduled_tasks_inv hok
  subst hs'
  refine ⟨?_, ?_, rfl⟩
  · have hfrom := initLoop_localJobs_from hl job hjob
    rcases hfrom with hin | ⟨kv, hkv, heq⟩
    · simp [SchedulerManager.new] at hin
    · exact ⟨kv, hkv, by rw [heq]; rfl, by rw [heq]; rfl, by rw [heq]; rfl⟩
  · show ((tasks.map Prod.fst).getLast? <|> SchedulerManager.new.loopCellTaskId) = _
    cases (tasks.map Prod.fst).getLast? <;> rfl

/-- Witness for the amended C6 at the two-task local configuration. -/
theorem C6_capture_semantics_witness :
    (∃ kv ∈ ex6Tasks, (localJobOf "a" exLocalCfgA).id = kv.1 ∧
       (localJobOf "a" exLocalCfgA).args_query = kv.2.query ∧
       (localJobOf "a" exLocalCfgA).args_delay_variation = kv.2.delay_variation)
    ∧ ex6State.loopCellTaskId = (ex6Tasks.map Prod.fst).getLast?
    ∧ fireLocalWrapper ((ex6State.loopCellTaskId).getD "")
        (localJobOf "a" exLocalCfgA) 2 (.ok "r") =
        (if (localJobOf "a" exLocalCfgA).args_delay_variation > 0 then
           [.debugSleep ((ex6State.loopCellTaskId).getD "") 2] else []) ++
        [.runnerInvoked (localJobOf "a" exLocalCfgA).args_query] ++
        (match (RunnerOutcome.ok "r") with
         | .ok _ => []
         | .err e => [.errorLog ("Job " ++ (localJobOf "a" exLocalCfgA).id ++
             " raised an exception: " ++ e)]) :=
  C6_capture_semantics ex6Tasks ex6State (localJobOf "a" exLocalCfgA) 2
    (.ok "r") rfl (by decide)

/-- C7: every queue-backed task with interval i gets a beat-schedule entry
on queue "sequential_queue" whose expires option is i - 1, so a job Beat
publishes at time `now` expires exactly at `now + i - 1`. -/
theorem C7_beat_expiry (tasks : List (String × TaskConfig)) (tid : String)
    (cfg : TaskConfig) (i : Int) (s' : SchedulerManager) (now : Int)
    (hmem : (tid, cfg) ∈ tasks) (hnodup : (tasks.map Prod.fst).Nodup)
    (hq : cfg.schedule.type = "queue") (hi : cfg.interval = some i)
    (hok : init_scheduled_tasks .new tasks = .ok s') :
    dictGet s'.beat_schedule tid = some (beatEntryFor tid i)
    ∧ (beatEnqueue (beatEntryFor tid i) now).expiresAt = some (now + i - 1) := by
  obtain ⟨s1, hl, hs'⟩ := init_scheduled_tasks_inv hok
  subst hs'
  constructor
  · show dictGet s1.beat_schedule tid = _
    exact initLoop_beat_mem hmem hnodup hq hi hl
  · show some (now + (i - 1)) = some (now + i - 1)
    rw [Int.add_sub_assoc]

/-- Witness for C7 at a concrete queue-backed task with interval 10. -/
theorem C7_beat_expiry_witness :
    dictGet ex4State.beat_schedule "t" = some (beatEntryFor "t" 10)
    ∧ (beatEnqueue (beatEntryFor "t" 10) 100).expiresAt = some (100 + 10 - 1) :=
  C7_beat_expiry ex4Tasks "t" exQueueCfg 10 ex4State 100
    (List.mem_cons_self _ _) (by decide) rfl rfl rfl

/-- C8 is false on the code: two task specs with the same id cannot reach
`init_scheduled_tasks` as separate entries — the tasks mapping is a dict
keyed by id, so the second spec silently overwrites the first; on the
duplicated configuration, initialization succeeds with no warning and no
error and registers exactly the surviving (later) spec. -/
theorem C8_counterexample :
    dictOfList ex8Tasks = [("t", { interval := some 7, query := "q2" })]
    ∧ exceptOk (init_scheduled_tasks .new (dictOfList ex8Tasks)) = true
    ∧ ex8State.localJobs.map LocalJob.id = ["t"]
    ∧ (ex8State.localJobs.headD exDefaultJob).args_query = "q2"
    ∧ ex8State.events.filter Event.isWarning = []
    ∧ ex8State.events.filter Event.isErrorLog = [] :=
  ⟨rfl, rfl, rfl, rfl, rfl, rfl⟩

/-- C8 (amended): a duplicate task id never reaches SchedulerManager
initialization as two entries: inserting under an existing key overwrites
the earlier value in place (the later spec silently wins, the entry count
does not grow), and the keys of any dict built from a configuration are
unique. -/
theorem C8_duplicate_overwrite {α : Type} (d : List (String × α))
    (k : String) (v1 v2 : α) (l : List (String × α)) :
    dictGet (dictInsert (dictInsert d k v1) k v2) k = some v2
    ∧ (dictInsert (dictInsert d k v1) k v2).length = (dictInsert d k v1).length
    ∧ ((dictOfList l).map Prod.fst).Nodup := by
  refine ⟨dictGet_insert_self _ _ _, ?_, keys_nodup_dictOfList l⟩
  exact dictInsert_length_of_mem _ k v2
    ((mem_keys_dictInsert d k k v1).mpr (Or.inr rfl))

/-- C9 is false on the code: `stop` takes no caller-supplied timeout — the
worker and beat joins use the hard-coded 5-second timeout — and when both
joins time out it still logs no warning at all. -/
theorem C9_counterexample :
    (stop ex9State .timedOut .timedOut).2 =
      [.broadcastShutdown, .info "Celery worker and beat shutdown initiated",
       .joinThread "celery_worker_thread" 5 .timedOut,
       .joinThread "celery_beat_thread" 5 .timedOut,
       .purge, .info "Celery tasks purged"]
    ∧ (stop ex9State .timedOut .timedOut).2.filter Event.isWarning = [] :=
  ⟨rfl, rfl⟩

/-- C9 (amended): `stop()` takes no timeout parameter; it shuts down the
local scheduler waiting for in-flight runs when it is running, and if the
Celery app exists it broadcasts a shutdown signal, joins the worker and
beat threads each bounded by a fixed 5-second timeout, and then purges
still-queued jobs; it always runs to completion regardless of the join
outcomes and never logs a warning, and it leaves the local scheduler
stopped. -/
theorem C9_stop_behavior (s : SchedulerManager) (wj bj : JoinOutcome) :
    (stop s wj bj).2 =
      (if s.localRunning then
         [.localShutdown true, .info "Local task scheduler stopped"]
       else []) ++
      (if s.celery_app.isSome then
         [.broadcastShutdown, .info "Celery worker and beat shutdown initiated"] ++
         (match s.worker_thread with
          | some t => [.joinThread t.name 5 wj]
          | none => []) ++
         (match s.beat_thread with
          | some t => [.joinThread t.name 5 bj]
          | none => []) ++
         [.purge, .info "Celery tasks purged"]
       else [])
    ∧ (stop s wj bj).2.filter Event.isWarning = []
    ∧ (stop s wj bj).1.localRunning = false := by
  refine ⟨rfl, ?_, rfl⟩
  unfold stop
  by_cases hl : s.localRunning <;> by_cases hc : s.celery_app.isSome <;>
    cases hw : s.worker_thread <;> cases hb : s.beat_thread <;>
      simp [hl, hc, hw, hb, Event.isWarning]

/-- C10: a task whose schedule type is neither "queue" nor "local" is
registered on the local scheduler through the else branch, but the local
scheduler is started only when some task has type exactly "local"; a
configuration containing only such tasks therefore leaves every task
registered while the local scheduler never starts. -/
theorem C10_unknown_backend_never_fired (tasks : List (String × TaskConfig))
    (s' : SchedulerManager)
    (hall : ∀ kv ∈ tasks, kv.2.schedule.type ≠ "queue" ∧
        kv.2.schedule.type ≠ "local" ∧
        (kv.2.cron.isSome ∨ kv.2.interval.isSome))
    (hnodup : (tasks.map Prod.fst).Nodup)
    (hok : init_scheduled_tasks .new tasks = .ok s') :
    s'.localJobs.map LocalJob.id = tasks.map Prod.fst
    ∧ s'.localRunning = false := by
  obtain ⟨s1, hl, hs'⟩ := init_scheduled_tasks_inv hok
  obtain ⟨s2, hl2, hids, _⟩ :=
    @initLoop_local_all tasks SchedulerManager.new
      (fun kv hkv => ⟨(hall kv hkv).1, (hall kv hkv).2.2⟩)
      (fun kv _ => by simp [SchedulerManager.new]) hnodup
  rw [hl] at hl2
  rw [Except.ok.injEq] at hl2
  subst hs'
  constructor
  · show s1.localJobs.map LocalJob.id = _
    rw [hl2, hids]
    simp [SchedulerManager.new]
  · show (tasks.any fun kv => kv.2.schedule.type = "local") = false
    simp only [List.any_eq_false, decide_eq_true_eq]
    exact fun kv hkv => (hall kv hkv).2.1

/-- Witness for C10 at a one-task configuration with the misspelled
backend type "locall". -/
theorem C10_unknown_backend_never_fired_witness :
    ex10State.localJobs.map LocalJob.id = ex10Tasks.map Prod.fst
    ∧ ex10State.localRunning = false :=
  C10_unknown_backend_never_fired ex10Tasks ex10State (by decide) (by decide)
    rfl

end OpenAgent
